import Mathlib

/-!
Verification development for the AI invoice processing backend.

Each Python module relevant to the checked properties is shallowly embedded:
pure functions become Lean functions, the mutable service objects become
explicit state passing, machine floats become exact rationals, exceptions
become `Except`/`Option` results.  Dictionaries of heterogeneous Python
values are embedded by the inductive type `PyVal`.
-/

/-- Embedding of a Python value as stored in the heterogeneous dictionaries
(`Dict[str, Any]`) that the services pass around.  Numbers are embedded as
exact rationals. -/
inductive PyVal where
  | vNone : PyVal
  | vBool : Bool → PyVal
  | vNum : ℚ → PyVal
  | vStr : String → PyVal
  | vList : List PyVal → PyVal
  | vDict : List (String × PyVal) → PyVal

/-- Lexicographic comparison of character lists by code point. -/
def pyCharsLt : List Char → List Char → Bool
  | [], [] => false
  | [], _ :: _ => true
  | _ :: _, [] => false
  | a :: as, b :: bs =>
      if a.toNat < b.toNat then true
      else if b.toNat < a.toNat then false
      else pyCharsLt as bs

/-- The Python `<` on strings: lexicographic by code point. -/
def pyStrLt (a b : String) : Bool := pyCharsLt a.toList b.toList

/-- Lookup in an insertion-ordered association list (Python `dict.get`). -/
def alistGet {α : Type} : List (String × α) → String → Option α
  | [], _ => none
  | (k', v') :: rest, k => if k' = k then some v' else alistGet rest k

/-- Update or insert a key in an insertion-ordered association list
(Python `dict.__setitem__`): an existing key keeps its position. -/
def alistSet {α : Type} : List (String × α) → String → α → List (String × α)
  | [], k, v => [(k, v)]
  | (k', v') :: rest, k, v =>
      if k' = k then (k, v) :: rest else (k', v') :: alistSet rest k v

namespace WorkflowSM

/-! Embedding of `backend/workflow-service/workflow_engine/state_machine.py`. -/

/-- `InvoiceState` enum: invoice lifecycle states. -/
inductive InvoiceState where
  | uploaded | processing | ocr_complete | extracted | validated
  | review_pending | approved | rejected | payment_pending | paid
  | archived | error
deriving DecidableEq, Fintype

/-- `TransitionAction` enum: actions that trigger state transitions. -/
inductive TransitionAction where
  | upload | start_processing | complete_ocr | complete_extraction
  | validate | request_review | approve | reject | request_payment
  | confirm_payment | archive | report_error | retry
deriving DecidableEq, Fintype

open InvoiceState TransitionAction in
/-- `StateMachine.TRANSITIONS`: the nested dictionary of valid transitions,
as a finite map from (state, action) to the target state. -/
def TRANSITIONS : InvoiceState → TransitionAction → Option InvoiceState
  | uploaded, start_processing => some processing
  | uploaded, report_error => some error
  | processing, complete_ocr => some ocr_complete
  | processing, report_error => some error
  | ocr_complete, complete_extraction => some extracted
  | ocr_complete, report_error => some error
  | extracted, validate => some validated
  | extracted, report_error => some error
  | validated, request_review => some review_pending
  | validated, approve => some approved
  | review_pending, approve => some approved
  | review_pending, reject => some rejected
  | approved, request_payment => some payment_pending
  | payment_pending, confirm_payment => some paid
  | payment_pending, report_error => some error
  | paid, archive => some archived
  | rejected, archive => some archived
  | rejected, retry => some uploaded
  | error, retry => some uploaded
  | error, archive => some archived
  | _, _ => none

open InvoiceState TransitionAction in
/-- Modelled from the spec: the transition table of section 4.6, row by row,
used to compare the code's `TRANSITIONS` dictionary against the spec. -/
def specTransitionTable : List (InvoiceState × TransitionAction × InvoiceState) :=
  [ (uploaded, start_processing, processing),
    (uploaded, report_error, error),
    (processing, report_error, error),
    (ocr_complete, report_error, error),
    (extracted, report_error, error),
    (payment_pending, report_error, error),
    (processing, complete_ocr, ocr_complete),
    (ocr_complete, complete_extraction, extracted),
    (extracted, validate, validated),
    (validated, request_review, review_pending),
    (validated, approve, approved),
    (review_pending, approve, approved),
    (review_pending, reject, rejected),
    (approved, request_payment, payment_pending),
    (payment_pending, confirm_payment, paid),
    (paid, archive, archived),
    (rejected, archive, archived),
    (rejected, retry, uploaded),
    (error, retry, uploaded),
    (error, archive, archived) ]

/-- `StateTransition` dataclass: a state transition record.  The wall-clock
`datetime` is embedded as a natural number of UTC seconds. -/
structure StateTransition where
  from_state : InvoiceState
  to_state : InvoiceState
  action : TransitionAction
  timestamp : ℕ
  actor : Option String
  comment : Option String
  metadata : List (String × PyVal)

/-- `WorkflowState` dataclass: current workflow state for an invoice. -/
structure WorkflowState where
  invoice_id : String
  current_state : InvoiceState
  history : List StateTransition := []
  assigned_to : Option String := none
  due_date : Option ℕ := none
  sla_status : String := "on_track"
  created_at : ℕ
  updated_at : ℕ

/-- A state-entry hook: it observes the workflow and either returns (`ok`)
or raises an exception carrying a message (`error`). -/
def Hook : Type := WorkflowState → Except String Unit

/-- The mutable `StateMachine` object: its `_workflows` dictionary (as an
insertion-ordered association list) and its `_hooks` registry. -/
structure Machine where
  workflows : List (String × WorkflowState)
  hooks : InvoiceState → List Hook

/-- `StateMachine.get_workflow`. -/
def get_workflow (m : Machine) (invoice_id : String) : Option WorkflowState :=
  alistGet m.workflows invoice_id

/-- `StateMachine.create_workflow`: store and return a fresh workflow in the
given initial state (`now` stands for `datetime.utcnow()`). -/
def create_workflow (m : Machine) (invoice_id : String)
    (initial_state : InvoiceState) (now : ℕ) : Machine × WorkflowState :=
  let workflow : WorkflowState :=
    { invoice_id := invoice_id
      current_state := initial_state
      created_at := now
      updated_at := now }
  ({ m with workflows := alistSet m.workflows invoice_id workflow }, workflow)

/-- `StateMachine._execute_hooks`: run every hook registered for the entered
state; each outcome (normal return or exception) is discarded, so a raising
hook is swallowed.  The returned list of outcomes is ignored by `transition`. -/
def execute_hooks (m : Machine) (state : InvoiceState)
    (workflow : WorkflowState) : List (Except String Unit) :=
  (m.hooks state).map (fun h => h workflow)

/-- `StateMachine.can_transition`. -/
def can_transition (m : Machine) (invoice_id : String)
    (action : TransitionAction) : Bool :=
  match get_workflow m invoice_id with
  | none => false
  | some w => (TRANSITIONS w.current_state action).isSome

/-- `StateMachine.transition`: execute a state transition, or raise
`ValueError` (embedded as `Except.error`) when there is no workflow or the
(state, action) pair is not in `TRANSITIONS`.  On success the transition
record is appended to the history, the current state is replaced by the
target state, and the state-entry hooks run (their outcomes discarded). -/
def transition (m : Machine) (invoice_id : String) (action : TransitionAction)
    (now : ℕ) (actor : Option String := none) (comment : Option String := none)
    (metadata : Option (List (String × PyVal)) := none) :
    Except String Machine :=
  match alistGet m.workflows invoice_id with
  | none => .error ("No workflow found for invoice " ++ invoice_id)
  | some workflow =>
    match TRANSITIONS workflow.current_state action with
    | none => .error "Invalid transition"
    | some to_state =>
      let tr : StateTransition :=
        { from_state := workflow.current_state
          to_state := to_state
          action := action
          timestamp := now
          actor := actor
          comment := comment
          metadata := metadata.getD [] }
      let workflow' :=
        { workflow with
            history := workflow.history ++ [tr]
            current_state := to_state
            updated_at := now }
      let m' := { m with workflows := alistSet m.workflows invoice_id workflow' }
      let _ := execute_hooks m' to_state workflow'
      .ok m'

/-- One call against the state machine service: either `create_workflow` or
`transition` (a `transition` call that raises leaves the machine unchanged,
exactly as an exception leaves the Python object untouched). -/
inductive Op where
  | create (invoice_id : String) (initial_state : InvoiceState) (now : ℕ)
  | trans (invoice_id : String) (action : TransitionAction) (now : ℕ)
      (actor : Option String) (comment : Option String)
      (metadata : Option (List (String × PyVal)))

/-- Apply one call to the machine. -/
def applyOp (m : Machine) : Op → Machine
  | .create invoice_id initial now => (create_workflow m invoice_id initial now).1
  | .trans invoice_id action now actor comment metadata =>
      match transition m invoice_id action now actor comment metadata with
      | .ok m' => m'
      | .error _ => m

/-- Apply a sequence of calls to the machine. -/
def runOps (m : Machine) (ops : List Op) : Machine :=
  ops.foldl applyOp m

/-- A machine whose `_workflows` dictionary is empty; the hook registry is
arbitrary. -/
def emptyMachine (hooks : InvoiceState → List Hook) : Machine :=
  { workflows := [], hooks := hooks }

end WorkflowSM

namespace MessageQueueM

/-! Embedding of `backend/shared/message_queue.py`. -/

/-- `EventType` enum: system event types. -/
inductive EventType where
  | invoice_uploaded | invoice_processed | invoice_approved
  | invoice_rejected | invoice_paid
  | payment_initiated | payment_completed | payment_failed | payment_refunded
  | erp_sync_started | erp_sync_completed | erp_sync_failed
  | approval_requested | approval_assigned | approval_completed
  | system_error | system_warning
deriving DecidableEq

/-- The `.value` string of an `EventType` member. -/
def EventType.value : EventType → String
  | .invoice_uploaded => "invoice.uploaded"
  | .invoice_processed => "invoice.processed"
  | .invoice_approved => "invoice.approved"
  | .invoice_rejected => "invoice.rejected"
  | .invoice_paid => "invoice.paid"
  | .payment_initiated => "payment.initiated"
  | .payment_completed => "payment.completed"
  | .payment_failed => "payment.failed"
  | .payment_refunded => "payment.refunded"
  | .erp_sync_started => "erp.sync_started"
  | .erp_sync_completed => "erp.sync_completed"
  | .erp_sync_failed => "erp.sync_failed"
  | .approval_requested => "approval.requested"
  | .approval_assigned => "approval.assigned"
  | .approval_completed => "approval.completed"
  | .system_error => "system.error"
  | .system_warning => "system.warning"

/-- The `EventType(...)` enum constructor on a string: `some` member on a
valid value, `none` for the `ValueError` raised on anything else. -/
def EventType.ofValue (s : String) : Option EventType :=
  if s = "invoice.uploaded" then some .invoice_uploaded
  else if s = "invoice.processed" then some .invoice_processed
  else if s = "invoice.approved" then some .invoice_approved
  else if s = "invoice.rejected" then some .invoice_rejected
  else if s = "invoice.paid" then some .invoice_paid
  else if s = "payment.initiated" then some .payment_initiated
  else if s = "payment.completed" then some .payment_completed
  else if s = "payment.failed" then some .payment_failed
  else if s = "payment.refunded" then some .payment_refunded
  else if s = "erp.sync_started" then some .erp_sync_started
  else if s = "erp.sync_completed" then some .erp_sync_completed
  else if s = "erp.sync_failed" then some .erp_sync_failed
  else if s = "approval.requested" then some .approval_requested
  else if s = "approval.assigned" then some .approval_assigned
  else if s = "approval.completed" then some .approval_completed
  else if s = "system.error" then some .system_error
  else if s = "system.warning" then some .system_warning
  else none

/-- `MessagePriority` enum: message priority levels. -/
inductive MessagePriority where
  | low | normal | high | critical
deriving DecidableEq

/-- The integer `.value` of a `MessagePriority` member. -/
def MessagePriority.value : MessagePriority → ℕ
  | .low => 1
  | .normal => 2
  | .high => 3
  | .critical => 4

/-- The `MessagePriority(...)` enum constructor on an integer. -/
def MessagePriority.ofValue (n : ℕ) : Option MessagePriority :=
  if n = 1 then some .low
  else if n = 2 then some .normal
  else if n = 3 then some .high
  else if n = 4 then some .critical
  else none

/-- The `Message` object.  `datetime` values are embedded as natural numbers
of UTC seconds. -/
structure Message where
  id : String
  event_type : EventType
  data : PyVal
  priority : MessagePriority
  correlation_id : String
  timestamp : ℕ
  retry_count : ℕ
  max_retries : ℕ

/-- `Message.__init__`: `now` stands for the two `datetime.utcnow()` reads
(the generated id renders the timestamp after `msg_`). -/
def mkMessage (now : ℕ) (event_type : EventType) (data : PyVal)
    (priority : MessagePriority := .normal)
    (correlation_id : Option String := none) : Message :=
  let generated_id := "msg_" ++ toString now
  { id := generated_id
    event_type := event_type
    data := data
    priority := priority
    correlation_id := correlation_id.getD generated_id
    timestamp := now
    retry_count := 0
    max_retries := 3 }

/-- A value of the serialized message dictionary.  `iso t` stands for the
ISO-8601 string `datetime(t).isoformat()`; since `isoformat` is injective
and `datetime.fromisoformat` is its left inverse, carrying the underlying
time is a faithful embedding of that string. -/
inductive DVal where
  | str : String → DVal
  | nat : ℕ → DVal
  | pay : PyVal → DVal
  | iso : ℕ → DVal

/-- Lookup in the serialized dictionary. -/
def dGet : List (String × DVal) → String → Option DVal
  | [], _ => none
  | (k', v') :: rest, k => if k' = k then some v' else dGet rest k

/-- `Message.to_dict`. -/
def Message.to_dict (m : Message) : List (String × DVal) :=
  [ ("id", .str m.id),
    ("event_type", .str m.event_type.value),
    ("data", .pay m.data),
    ("priority", .nat m.priority.value),
    ("correlation_id", .str m.correlation_id),
    ("timestamp", .iso m.timestamp),
    ("retry_count", .nat m.retry_count),
    ("max_retries", .nat m.max_retries) ]

/-- `Message.from_dict`: rebuild a message from a dictionary; a missing
required key, an invalid enum value or an ill-typed field raises (`none`).
`now` stands for the `datetime.utcnow()` reads inside the `Message`
constructor that `from_dict` calls before overwriting id and timestamp. -/
def Message.from_dict (now : ℕ) (d : List (String × DVal)) : Option Message :=
  match dGet d "event_type" with
  | some (.str et_str) =>
    match EventType.ofValue et_str with
    | some event_type =>
      match dGet d "data" with
      | some (.pay data) =>
        match (match dGet d "priority" with
               | none => some (MessagePriority.normal.value)
               | some (.nat p) => some p
               | _ => none) with
        | some p =>
          match MessagePriority.ofValue p with
          | some priority =>
            let correlation_id : Option String :=
              match dGet d "correlation_id" with
              | some (.str c) => some c
              | _ => none
            let msg := mkMessage now event_type data priority correlation_id
            match dGet d "id" with
            | some (.str id) =>
              match dGet d "timestamp" with
              | some (.iso ts) =>
                match (match dGet d "retry_count" with
                       | none => some 0
                       | some (.nat r) => some r
                       | _ => none) with
                | some retry_count =>
                  match (match dGet d "max_retries" with
                         | none => some 3
                         | some (.nat r) => some r
                         | _ => none) with
                  | some max_retries =>
                    some { msg with
                             id := id
                             timestamp := ts
                             retry_count := retry_count
                             max_retries := max_retries }
                  | none => none
                | none => none
              | _ => none
            | _ => none
          | none => none
        | none => none
      | _ => none
    | none => none
  | _ => none

/-- A subscribed handler: it consumes the message and either returns or
raises an exception carrying a message string. -/
def Handler : Type := Message → Except String Unit

/-- `RedisMessageQueue._send_to_dlq`: the dictionary pushed onto the
`dlq:failed_messages` list (`now` stands for the `failed_at` read of
`datetime.utcnow()`). -/
def send_to_dlq (now : ℕ) (m : Message) (error : String) :
    List (String × DVal) :=
  m.to_dict ++ [("error", .str error), ("failed_at", .iso now)]

/-- `RedisMessageQueue._handle_message`, delivery part: run every handler
for the event type on the (already parsed) message; each handler that
raises causes one immediate `_send_to_dlq` push.  The returned list is the
sequence of dictionaries pushed onto the dead letter queue. -/
def handle_message (now : ℕ) (handlers : List Handler) (m : Message) :
    List (List (String × DVal)) :=
  handlers.foldl
    (fun dlq h =>
      match h m with
      | .ok _ => dlq
      | .error e => dlq ++ [send_to_dlq now m e])
    []

end MessageQueueM

namespace SLAM

/-! Embedding of `backend/workflow-service/sla_manager/manager.py`.
Wall-clock datetimes are embedded as exact rationals of UTC seconds, so
that `timedelta` arithmetic and `total_seconds()` are exact. -/

/-- `SLAStatus` enum. -/
inductive SLAStatus where
  | on_track | warning | breached | expired
deriving DecidableEq

/-- `EscalationLevel` enum.  It derives from `str`, so comparisons between
members in the manager go through their string `.value`s. -/
inductive EscalationLevel where
  | none | reminder | manager | director | executive
deriving DecidableEq

/-- The string `.value` of an `EscalationLevel` member. -/
def EscalationLevel.value : EscalationLevel → String
  | .none => "none"
  | .reminder => "reminder"
  | .manager => "manager"
  | .director => "director"
  | .executive => "executive"

/-- `SLAConfig` dataclass (defaults as in the source). -/
structure SLAConfig where
  processing_hours : ℕ := 24
  review_hours : ℕ := 48
  approval_hours : ℕ := 72
  warning_threshold : ℚ := 3/4
  first_reminder_hours : ℕ := 4
  manager_escalation_hours : ℕ := 8
  director_escalation_hours : ℕ := 24
deriving DecidableEq

/-- `SLARecord` dataclass. -/
structure SLARecord where
  invoice_id : String
  created_at : ℚ
  deadline : ℚ
  status : SLAStatus := .on_track
  current_escalation : EscalationLevel := .none
  reminder_count : ℕ := 0
  last_reminder_at : Option ℚ := Option.none
  breached_at : Option ℚ := Option.none
  assigned_to : Option String := Option.none
deriving DecidableEq

/-- `SLAManager.check_sla` on a record that exists: update the status from
the current time and return the updated record. -/
def check_sla (cfg : SLAConfig) (record : SLARecord) (now : ℚ) : SLARecord :=
  let time_to_deadline := record.deadline - now
  let total_time := record.deadline - record.created_at
  if time_to_deadline ≤ 0 then
    if record.status ≠ SLAStatus.breached then
      { record with status := .breached, breached_at := some now }
    else record
  else if time_to_deadline < total_time * (1 - cfg.warning_threshold) then
    if record.status = SLAStatus.on_track then
      { record with status := .warning }
    else record
  else record

/-- An escalation or reminder action returned by `get_escalation_action`
(the `invoice_id` entry of the dictionary repeats the record's id). -/
structure EscAction where
  type : String
  level : EscalationLevel
  reason : String
deriving DecidableEq

/-- `SLAManager.get_escalation_action` on a record that exists: first runs
`check_sla`, then picks an action.  Every comparison between escalation
levels in the source is a Python `<` between the members of the `str`-based
enum, i.e. a lexicographic comparison of their `.value` strings, embedded
here verbatim as `pyStrLt`. -/
def get_escalation_action (cfg : SLAConfig) (record0 : SLARecord) (now : ℚ) :
    Option EscAction × SLARecord :=
  let record := check_sla cfg record0 now
  let hours_elapsed := (now - record.created_at) / 3600
  if record.status = SLAStatus.breached then
    if pyStrLt record.current_escalation.value EscalationLevel.executive.value then
      (some { type := "escalate", level := .executive, reason := "SLA breached" },
       { record with current_escalation := .executive })
    else (Option.none, record)
  else if record.status = SLAStatus.warning then
    if hours_elapsed ≥ (cfg.director_escalation_hours : ℚ) then
      if pyStrLt record.current_escalation.value EscalationLevel.director.value then
        (some { type := "escalate", level := .director,
                reason := "SLA warning - director escalation" },
         { record with current_escalation := .director })
      else (Option.none, record)
    else if hours_elapsed ≥ (cfg.manager_escalation_hours : ℚ) then
      if pyStrLt record.current_escalation.value EscalationLevel.manager.value then
        (some { type := "escalate", level := .manager,
                reason := "SLA warning - manager escalation" },
         { record with current_escalation := .manager })
      else (Option.none, record)
    else if hours_elapsed ≥ (cfg.first_reminder_hours : ℚ) then
      if record.reminder_count < 3 then
        (some { type := "reminder", level := .reminder,
                reason := "SLA warning - reminder" },
         { record with reminder_count := record.reminder_count + 1,
                       last_reminder_at := some now })
      else (Option.none, record)
    else (Option.none, record)
  else (Option.none, record)

end SLAM

/-- Lowercase an ASCII letter (Python `str.lower` restricted to ASCII, which
is all the embedded code compares). -/
def charLower (c : Char) : Char :=
  if 65 ≤ c.toNat ∧ c.toNat ≤ 90 then Char.ofNat (c.toNat + 32) else c

/-- Python `str.lower`. -/
def pyLower (s : String) : String := String.mk (s.toList.map charLower)

/-- Whether the first character list starts the second. -/
def charsLeads : List Char → List Char → Bool
  | [], _ => true
  | _ :: _, [] => false
  | a :: as, b :: bs => a == b && charsLeads as bs

/-- Whether the first character list occurs contiguously in the second. -/
def charsWithin : List Char → List Char → Bool
  | n, [] => n.isEmpty
  | n, b :: tl => charsLeads n (b :: tl) || charsWithin n tl

/-- The Python substring test `needle in hay`. -/
def strWithin (needle hay : String) : Bool := charsWithin needle.toList hay.toList

/-- Python `%` on exact numbers: `a % b = a - b * floor(a / b)`. -/
def pyMod (a b : ℚ) : ℚ := a - b * (⌊a / b⌋ : ℚ)

namespace RiskScoringM

/-! Embedding of `ai-services/anomaly-detection/risk_scoring/scorer.py`
for the default `RiskScorer()` instance (default weights, review threshold
0.5).  Monetary amounts and scores are embedded as exact rationals. -/

/-- `RiskLevel` enum. -/
inductive RiskLevel where
  | low | medium | high | critical
deriving DecidableEq

/-- `RiskFactor` enum. -/
inductive RiskFactor where
  | amount_deviation | new_vendor | unusual_timing | duplicate_suspected
  | missing_po | round_amount | rush_payment | threshold_splitting
  | vendor_risk | unusual_category
deriving DecidableEq

/-- `RiskIndicator` dataclass.  The `description` and `evidence` display
strings are presentation only and are omitted from the embedding. -/
structure RiskIndicator where
  factor : RiskFactor
  weight : ℚ
  score : ℚ
deriving DecidableEq

/-- `RiskScorer.FACTOR_WEIGHTS` (the default scorer applies no custom
weights, so `self.weights.get(factor, 0.1)` is exactly this map). -/
def FACTOR_WEIGHTS : RiskFactor → ℚ
  | .amount_deviation => 20/100
  | .new_vendor => 15/100
  | .unusual_timing => 10/100
  | .duplicate_suspected => 25/100
  | .missing_po => 10/100
  | .round_amount => 5/100
  | .rush_payment => 10/100
  | .threshold_splitting => 20/100
  | .vendor_risk => 15/100
  | .unusual_category => 5/100

/-- The fields of the `invoice_data` dictionary the scorer reads; a field
left at its default stands for a missing dictionary entry (`dict.get`
defaults: amount 0, po_number `None`, payment_terms `""`). -/
structure InvoiceData where
  total_amount : ℚ := 0
  po_number : Option String := none
  payment_terms : String := ""
deriving DecidableEq

/-- The fields of the `vendor_history` dictionary the scorer reads. -/
structure VendorHistory where
  average_invoice_amount : ℚ := 0
  total_invoices : ℕ := 0
deriving DecidableEq

/-- The fields of the `company_config` dictionary the scorer reads, with
the source's default approval thresholds. -/
structure CompanyConfig where
  approval_thresholds : List ℚ := [1000, 5000, 10000, 25000]
deriving DecidableEq

/-- `RiskScorer._check_amount_deviation`. -/
def check_amount_deviation (inv : InvoiceData) (hist : VendorHistory) :
    Option RiskIndicator :=
  let amount := inv.total_amount
  let avg_amount := hist.average_invoice_amount
  if avg_amount = 0 ∨ amount = 0 then none
  else
    let deviation := |amount - avg_amount| / avg_amount
    if deviation > 1/2 then
      some { factor := .amount_deviation,
             weight := FACTOR_WEIGHTS .amount_deviation,
             score := min deviation 1 }
    else none

/-- `RiskScorer._check_new_vendor`. -/
def check_new_vendor (hist : VendorHistory) : Option RiskIndicator :=
  if hist.total_invoices < 3 then
    some { factor := .new_vendor,
           weight := FACTOR_WEIGHTS .new_vendor,
           score := if hist.total_invoices = 0 then 7/10 else 2/5 }
  else none

/-- `RiskScorer._check_missing_po`. -/
def check_missing_po (inv : InvoiceData) : Option RiskIndicator :=
  if inv.po_number.getD "" = "" then
    if inv.total_amount > 1000 then
      some { factor := .missing_po,
             weight := FACTOR_WEIGHTS .missing_po,
             score := 3/5 }
    else none
  else none

/-- `RiskScorer._check_round_amount`. -/
def check_round_amount (inv : InvoiceData) : Option RiskIndicator :=
  if 1000 ≤ inv.total_amount ∧ pyMod inv.total_amount 1000 = 0 then
    some { factor := .round_amount,
           weight := FACTOR_WEIGHTS .round_amount,
           score := 3/10 }
  else none

/-- `RiskScorer._check_rush_payment`. -/
def check_rush_payment (inv : InvoiceData) : Option RiskIndicator :=
  let payment_terms := pyLower inv.payment_terms
  if [ "immediate", "due upon receipt", "urgent", "asap",
       "net 0" ].any (fun ind => strWithin ind payment_terms) then
    some { factor := .rush_payment,
           weight := FACTOR_WEIGHTS .rush_payment,
           score := 1/2 }
  else none

/-- The loop of `RiskScorer._check_threshold_splitting`: the first
configured threshold `t` with `t * 0.85 <= amount < t * 0.98`. -/
def thresholdHit (amount : ℚ) : List ℚ → Option ℚ
  | [] => none
  | t :: rest =>
      if t * (85/100) ≤ amount ∧ amount < t * (98/100) then some t
      else thresholdHit amount rest

/-- `RiskScorer._check_threshold_splitting`. -/
def check_threshold_splitting (inv : InvoiceData) (cfg : CompanyConfig) :
    Option RiskIndicator :=
  match thresholdHit inv.total_amount cfg.approval_thresholds with
  | some _ =>
      some { factor := .threshold_splitting,
             weight := FACTOR_WEIGHTS .threshold_splitting,
             score := 3/5 }
  | none => none

/-- The indicator list built by `RiskScorer.assess`: the six checks in
source order, with the `None` results removed. -/
def indicatorsOf (inv : InvoiceData) (hist : VendorHistory)
    (cfg : CompanyConfig) : List RiskIndicator :=
  ([ check_amount_deviation inv hist,
     check_new_vendor hist,
     check_missing_po inv,
     check_round_amount inv,
     check_rush_payment inv,
     check_threshold_splitting inv cfg ]).filterMap id

/-- The weighted score of `RiskScorer.assess`: weighted sum over produced
indicators divided by the total weight, `0.0` when no indicator fired. -/
def weightedScore (indicators : List RiskIndicator) : ℚ :=
  if indicators = [] then 0
  else
    (indicators.map (fun i => i.score * FACTOR_WEIGHTS i.factor)).sum /
      (indicators.map (fun i => FACTOR_WEIGHTS i.factor)).sum

/-- The risk-level selection loop of `RiskScorer.assess`: iterate over
`LEVEL_THRESHOLDS` sorted by threshold ascending, keep the first level whose
threshold is at or above the weighted score, fall back to `low`. -/
def pickLevel (ws : ℚ) : RiskLevel :=
  if ws ≤ 3/10 then .low
  else if ws ≤ 1/2 then .medium
  else if ws ≤ 7/10 then .high
  else if ws ≤ 1 then .critical
  else .low

/-- Modelled from the spec: the level buckets in ascending threshold order
(0.3 low, 0.5 medium, 0.7 high, 1.0 critical). -/
def levelBuckets : List (RiskLevel × ℚ) :=
  [(.low, 3/10), (.medium, 1/2), (.high, 7/10), (.critical, 1)]

/-- Modelled from the spec: the smallest bucket whose threshold is at or
above the given score. -/
def smallestBucket (q : ℚ) : Option RiskLevel :=
  (levelBuckets.find? (fun p => decide (q ≤ p.2))).map (fun p => p.1)

/-- Python `round(x, 3)` on exact values: round half to even at the third
decimal. -/
def rhe (x : ℚ) : ℤ :=
  let f := ⌊x⌋
  let r := x - (f : ℚ)
  if r < 1/2 then f
  else if 1/2 < r then f + 1
  else if f % 2 = 0 then f else f + 1

/-- Round to three decimals, half to even. -/
def round3 (x : ℚ) : ℚ := (rhe (x * 1000) : ℚ) / 1000

/-- `RiskScorer._generate_recommendations`. -/
def generate_recommendations (indicators : List RiskIndicator)
    (level : RiskLevel) : List String :=
  (indicators.filterMap fun i =>
    match i.factor with
    | .amount_deviation => some "Verify pricing with vendor or check for volume changes"
    | .new_vendor => some "Complete vendor verification before payment"
    | .missing_po => some "Obtain retroactive PO approval"
    | .duplicate_suspected => some "Confirm this is not a duplicate payment"
    | .threshold_splitting => some "Review for potential threshold avoidance"
    | _ => none)
  ++ (if level = .high ∨ level = .critical then
        ["Consider escalation to management review"]
      else [])

/-- `RiskAssessment` dataclass. -/
structure RiskAssessment where
  overall_score : ℚ
  level : RiskLevel
  indicators : List RiskIndicator
  recommendations : List String
  requires_review : Bool
deriving DecidableEq

/-- `RiskScorer.assess` for the default scorer (review threshold 0.5).
The level is selected from the raw weighted score; only the reported
`overall_score` is rounded to three decimals. -/
def assess (inv : InvoiceData) (hist : VendorHistory := {})
    (cfg : CompanyConfig := {}) : RiskAssessment :=
  let indicators := indicatorsOf inv hist cfg
  let ws := weightedScore indicators
  let level := pickLevel ws
  { overall_score := round3 ws
    level := level
    indicators := indicators
    recommendations := generate_recommendations indicators level
    requires_review := decide (ws ≥ 1/2) }

end RiskScoringM

namespace DuplicateDetectionM

/-! Embedding of `backend/ingestion-service/duplicate_detection/detector.py`
for the default `DuplicateDetector()` instance.  Wall-clock datetimes are
embedded as exact rationals of UTC seconds (`register_document` stores the
upload time as an ISO string; the embedding carries the time directly). -/

/-- The record dictionary that `register_document` stores in the indexes.
`amount` is `none` when a Python `None` was stored under the key. -/
structure DupRecord where
  document_id : String
  upload_date : Option ℚ
  amount : Option ℚ
  invoice_number : Option String
deriving DecidableEq

/-- The detector's two in-memory indexes (`_hash_index`, `_vendor_index`). -/
structure DetectorState where
  hash_index : List (String × List DupRecord) := []
  vendor_index : List (String × List DupRecord) := []

/-- `DuplicateMatch` dataclass.  The `details` display dictionary is
presentation only and is omitted from the embedding. -/
structure DuplicateMatch where
  original_id : String
  match_type : String
  confidence : ℚ
deriving DecidableEq

/-- `DuplicateDetector._amount_similarity` with the default tolerance. -/
def amount_similarity (a b : ℚ) (tolerance : ℚ := 1/100) : ℚ :=
  if a = 0 ∧ b = 0 then 1
  else if a = 0 ∨ b = 0 then 0
  else
    let diff_frac := |a - b| / max a b
    if diff_frac ≤ tolerance then 1
    else if diff_frac ≤ 1/10 then 8/10
    else if diff_frac ≤ 2/10 then 1/2
    else 0

/-- `DuplicateDetector.check_hash_duplicate`. -/
def check_hash_duplicate (st : DetectorState) (content_hash tenant_id : String) :
    Option DuplicateMatch :=
  let key := tenant_id ++ ":" ++ content_hash
  match alistGet st.hash_index key with
  | some (oldest :: _) =>
      some { original_id := oldest.document_id,
             match_type := "exact_hash",
             confidence := 1 }
  | _ => none

/-- `DuplicateDetector.check_vendor_invoice_duplicate`.  A falsy string
argument (Python `None` or `""`) is embedded as `""`. -/
def check_vendor_invoice_duplicate (st : DetectorState) (vendor_name : String)
    (vendor_id : Option String) (invoice_number : String) (tenant_id : String) :
    Option DuplicateMatch :=
  if invoice_number = "" then none
  else
    let vendor_key :=
      match vendor_id with
      | some v => if v = "" then vendor_name else v
      | none => vendor_name
    if vendor_key = "" then none
    else
      let key := tenant_id ++ ":" ++ vendor_key ++ ":" ++ invoice_number
      match alistGet st.vendor_index key with
      | some (original :: _) =>
          some { original_id := original.document_id,
                 match_type := "vendor_invoice_number",
                 confidence := 95/100 }
      | _ => none

/-- `timedelta.days` of a difference of `now - earlier` in seconds. -/
def pyDays (secs : ℚ) : ℤ := ⌊secs / 86400⌋

/-- The record loop of `check_similar_invoice`: skip records older than 7
days, return the first record whose amount similarity exceeds 0.95.  A
record whose stored amount is Python `None` makes `abs(a - None)` raise
`TypeError`, embedded as an `error` result. -/
def similarLoop (now amount : ℚ) : List DupRecord →
    Except String (Option DuplicateMatch)
  | [] => .ok none
  | record :: rest =>
      let skip : Bool :=
        match record.upload_date with
        | some d => decide (pyDays (now - d) > 7)
        | none => false
      if skip then similarLoop now amount rest
      else
        match record.amount with
        | none => .error "TypeError: unsupported operand type(s) for -: float and NoneType"
        | some record_amount =>
            if amount_similarity amount record_amount > 95/100 then
              .ok (some { original_id := record.document_id,
                          match_type := "similar_amount",
                          confidence := 7/10 })
            else similarLoop now amount rest

/-- `DuplicateDetector.check_similar_invoice` (its `invoice_date` argument
is unused in the source and omitted here). -/
def check_similar_invoice (st : DetectorState) (vendor_name : String)
    (amount : ℚ) (tenant_id : String) (now : ℚ) :
    Except String (Option DuplicateMatch) :=
  if vendor_name = "" ∨ amount ≤ 0 then .ok none
  else
    let vendor_key := tenant_id ++ ":" ++ pyLower vendor_name
    match alistGet st.vendor_index vendor_key with
    | none => .ok none
    | some records => similarLoop now amount records

/-- Python truthiness of an optional string. -/
def truthyS (o : Option String) : Bool := o.getD "" ≠ ""

/-- Python truthiness of an optional number. -/
def truthyQ (o : Option ℚ) : Bool := o.getD 0 ≠ 0

/-- Stable insertion for a descending sort by confidence. -/
def insertDesc (m : DuplicateMatch) : List DuplicateMatch → List DuplicateMatch
  | [] => [m]
  | x :: xs =>
      if m.confidence ≥ x.confidence then m :: x :: xs
      else x :: insertDesc m xs

/-- Python `list.sort(key=confidence, reverse=True)`: stable descending. -/
def sortDesc : List DuplicateMatch → List DuplicateMatch
  | [] => []
  | x :: xs => insertDesc x (sortDesc xs)

/-- `DuplicateDetector.check_all`: run the three checks with their gating,
collect the matches in order, sort by confidence descending.  A `TypeError`
raised inside the similarity check propagates out. -/
def check_all (st : DetectorState) (content_hash tenant_id : String)
    (vendor_name : Option String := none) (vendor_id : Option String := none)
    (invoice_number : Option String := none) (amount : Option ℚ := none)
    (now : ℚ := 0) : Except String (List DuplicateMatch) :=
  let hashM := check_hash_duplicate st content_hash tenant_id
  let vendM :=
    if truthyS vendor_name ∧ truthyS invoice_number then
      check_vendor_invoice_duplicate st (vendor_name.getD "") vendor_id
        (invoice_number.getD "") tenant_id
    else none
  match (if truthyS vendor_name ∧ truthyQ amount then
           check_similar_invoice st (vendor_name.getD "") (amount.getD 0)
             tenant_id now
         else .ok none) with
  | .error e => .error e
  | .ok simM => .ok (sortDesc (hashM.toList ++ vendM.toList ++ simM.toList))

end DuplicateDetectionM

namespace ApprovalRulesM

/-! Embedding of `backend/workflow-service/approval_rules/engine.py`, the
`RuleCondition.evaluate` part that the rules engine applies to the invoice
record. -/

/-- `RuleOperator` enum: comparison operators for rule conditions. -/
inductive RuleOperator where
  | equals | not_equals | greater_than | less_than
  | greater_or_equal | less_or_equal | contains | in_list | matches_regex
deriving DecidableEq

/-- `RuleCondition` dataclass. -/
structure RuleCondition where
  field : String
  operator : RuleOperator
  value : PyVal

/-- `str.split(".")` on character lists. -/
def splitDotChars : List Char → List (List Char)
  | [] => [[]]
  | c :: rest =>
      let r := splitDotChars rest
      if c = '.' then [] :: r
      else
        match r with
        | [] => [[c]]
        | h :: t => (c :: h) :: t

/-- Python `field.split(".")`. -/
def splitDot (s : String) : List String :=
  (splitDotChars s.toList).map String.mk

/-- Lookup of a key in an embedded dictionary, Python `dict.get`: a missing
key yields `None` (which `vNone` also embeds when stored explicitly). -/
def dictGet (d : List (String × PyVal)) (k : String) : PyVal :=
  (alistGet d k).getD .vNone

/-- The field-resolution loop of `RuleCondition.evaluate`: walk the dotted
path; a part looked up in a non-dict value yields `None` and stops. -/
def getField : PyVal → List String → PyVal
  | cur, [] => cur
  | cur, part :: rest =>
      match cur with
      | .vDict d => getField (dictGet d part) rest
      | _ => .vNone

/-- Whether the embedded value is Python `None`. -/
def pyIsNone : PyVal → Bool
  | .vNone => true
  | _ => false

mutual
/-- Python `==` between embedded values.  Booleans compare equal to their
integer value as in Python; dictionaries are compared field list against
field list (no checked claim compares dictionaries). -/
def pyEq : PyVal → PyVal → Bool
  | .vNone, .vNone => true
  | .vBool a, .vBool b => a == b
  | .vBool a, .vNum q => (if a then (1 : ℚ) else 0) == q
  | .vNum q, .vBool b => q == (if b then (1 : ℚ) else 0)
  | .vNum a, .vNum b => a == b
  | .vStr a, .vStr b => a == b
  | .vList a, .vList b => pyEqList a b
  | .vDict a, .vDict b => pyEqDict a b
  | _, _ => false

/-- Python `==` between embedded lists, element by element. -/
def pyEqList : List PyVal → List PyVal → Bool
  | [], [] => true
  | a :: as, b :: bs => pyEq a b && pyEqList as bs
  | _, _ => false

/-- Python `==` between embedded dictionary field lists. -/
def pyEqDict : List (String × PyVal) → List (String × PyVal) → Bool
  | [], [] => true
  | (k1, v1) :: as, (k2, v2) :: bs => k1 == k2 && pyEq v1 v2 && pyEqDict as bs
  | _, _ => false
end

/-- Parse an unsigned decimal digit string into (value, digit count). -/
def parseDigits : List Char → Option (ℕ × ℕ)
  | [] => some (0, 0)
  | c :: rest =>
      if c.isDigit then
        match parseDigits rest with
        | some (v, n) => some (v * 10 + (c.toNat - 48) * 10 ^ n, n + 1)
        | none => none
      else none

/-- Parse the body of a Python float literal: digits, optionally split by a
single dot, with at least one digit overall (exponents are not modelled;
no checked claim converts a string with an exponent). -/
def parseDecimal (cs : List Char) : Option ℚ :=
  match cs.splitOn '.' with
  | [whole] =>
      match parseDigits whole with
      | some (v, n) => if n = 0 then none else some (v : ℚ)
      | none => none
  | [whole, frac] =>
      match parseDigits whole, parseDigits frac with
      | some (w, nw), some (f, nf) =>
          if nw = 0 ∧ nf = 0 then none
          else some ((w : ℚ) + (f : ℚ) / (10 : ℚ) ^ nf)
      | _, _ => none
  | _ => none

/-- Python `float(str)`: strip spaces, optional sign, decimal body. -/
def parseFloatStr (s : String) : Option ℚ :=
  let cs := (s.toList.dropWhile (· = ' ')).reverse.dropWhile (· = ' ') |>.reverse
  match cs with
  | '-' :: rest => (parseDecimal rest).map (fun q => -q)
  | '+' :: rest => parseDecimal rest
  | rest => parseDecimal rest

/-- Python `float(...)` on an embedded value: numbers and booleans convert,
numeric strings parse, everything else raises. -/
def pyFloat : PyVal → Except String ℚ
  | .vNum q => .ok q
  | .vBool b => .ok (if b then 1 else 0)
  | .vStr s =>
      match parseFloatStr s with
      | some q => .ok q
      | none => .error "ValueError: could not convert string to float"
  | _ => .error "TypeError: float() argument must be a string or a real number"

/-- Python `str(...)` of an embedded value.  Numbers render via the exact
rational; container rendering is abbreviated (no checked claim applies the
`contains` operator, the only consumer, to a container). -/
def pyStrOf : PyVal → String
  | .vNone => "None"
  | .vBool b => if b then "True" else "False"
  | .vNum q => if q.den = 1 then toString q.num else toString q.num ++ "/" ++ toString q.den
  | .vStr s => s
  | .vList _ => "[...]"
  | .vDict _ => "{...}"

/-- Python `x in y` as used by the `in_list` operator: membership by `==`
in a list, substring test in a string, key test in a dictionary, `TypeError`
otherwise. -/
def pyIn (x : PyVal) : PyVal → Except String Bool
  | .vList l => .ok (l.any (fun v => pyEq v x))
  | .vStr s =>
      match x with
      | .vStr xs => .ok (strWithin xs s)
      | _ => .error "TypeError: in requires string as left operand"
  | .vDict d =>
      match x with
      | .vStr k => .ok ((alistGet d k).isSome)
      | _ => .ok false
  | _ => .error "TypeError: argument is not iterable"

/-- `RuleCondition.evaluate`: resolve the dotted field, return `False` when
it resolves to `None`, otherwise dispatch on the operator.  The final
catch-all `return False` of the source is what the `matches_regex` operator
reaches, since the source has no branch for it. -/
def evaluate (c : RuleCondition) (data : List (String × PyVal)) :
    Except String Bool :=
  let field_value := getField (.vDict data) (splitDot c.field)
  if pyIsNone field_value then .ok false
  else
    match c.operator with
    | .equals => .ok (pyEq field_value c.value)
    | .not_equals => .ok (!pyEq field_value c.value)
    | .greater_than => do
        let a ← pyFloat field_value
        let b ← pyFloat c.value
        .ok (decide (a > b))
    | .less_than => do
        let a ← pyFloat field_value
        let b ← pyFloat c.value
        .ok (decide (a < b))
    | .greater_or_equal => do
        let a ← pyFloat field_value
        let b ← pyFloat c.value
        .ok (decide (a ≥ b))
    | .less_or_equal => do
        let a ← pyFloat field_value
        let b ← pyFloat c.value
        .ok (decide (a ≤ b))
    | .contains =>
        .ok (strWithin (pyLower (pyStrOf c.value)) (pyLower (pyStrOf field_value)))
    | .in_list => pyIn field_value c.value
    | .matches_regex => .ok false

end ApprovalRulesM

/-! Theorems.  Each claim of the specification review is settled by one
named theorem below; shared helper lemmas come first. -/

section StateMachineProofs

open WorkflowSM

/-- Key lookup after an upsert: the set key answers the new value, other
keys are unchanged. -/
theorem alistGet_alistSet {α : Type} (l : List (String × α)) (k k' : String)
    (v : α) :
    alistGet (alistSet l k v) k' = if k = k' then some v else alistGet l k' := by
  induction l with
  | nil => by_cases h : k = k' <;> simp [alistGet, alistSet, h]
  | cons hd tl ih =>
    obtain ⟨k0, v0⟩ := hd
    by_cases h0 : k0 = k
    · subst h0
      by_cases h1 : k0 = k'
      · subst h1
        simp [alistGet, alistSet]
      · simp [alistGet, alistSet, h1]
    · have h0' : ¬(k = k0) := fun h => h0 h.symm
      by_cases h1 : k0 = k'
      · subst h1
        simp [alistGet, alistSet, h0, h0']
      · simp [alistGet, alistSet, h0, h1, ih]

/-- The code's transition dictionary agrees with the spec's section-4.6
transition table row for row. -/
theorem TRANSITIONS_matches_specTable :
    ∀ (s : InvoiceState) (a : TransitionAction) (t : InvoiceState),
      TRANSITIONS s a = some t ↔ (s, a, t) ∈ specTransitionTable := by
  decide

/-- What a successful `transition` produces, given the stored workflow. -/
theorem transition_ok_eq (m : Machine) (invoice_id : String)
    (a : TransitionAction) (now : ℕ) (actor comment : Option String)
    (md : Option (List (String × PyVal))) (w : WorkflowState)
    (hw : alistGet m.workflows invoice_id = some w)
    (t : InvoiceState) (htr : TRANSITIONS w.current_state a = some t) :
    transition m invoice_id a now actor comment md =
      .ok { m with
              workflows := alistSet m.workflows invoice_id
                { w with
                    history := w.history ++
                      [{ from_state := w.current_state
                         to_state := t
                         action := a
                         timestamp := now
                         actor := actor
                         comment := comment
                         metadata := md.getD [] }]
                    current_state := t
                    updated_at := now } } := by
  simp only [transition, hw, htr]

/-- What a rejected `transition` produces, given the stored workflow. -/
theorem transition_err_eq (m : Machine) (invoice_id : String)
    (a : TransitionAction) (now : ℕ) (actor comment : Option String)
    (md : Option (List (String × PyVal))) (w : WorkflowState)
    (hw : alistGet m.workflows invoice_id = some w)
    (htr : TRANSITIONS w.current_state a = none) :
    transition m invoice_id a now actor comment md =
      .error "Invalid transition" := by
  simp only [transition, hw, htr]

/-- C1.  For a workflow that exists, `StateMachine.transition` succeeds
exactly when the (current state, action) pair is in the section-4.6 table
(`TRANSITIONS` agrees with the spec table row for row); on success it
replaces the current state with the table's target and appends exactly one
`StateTransition` record with that from/to/action; on a pair outside the
table it raises and — running it through `applyOp`, which models the caller
catching the exception — leaves the machine, hence current state and
history, unchanged. -/
theorem transition_follows_table
    (m : Machine) (invoice_id : String) (a : TransitionAction) (now : ℕ)
    (actor comment : Option String) (md : Option (List (String × PyVal)))
    (w : WorkflowState)
    (hw : get_workflow m invoice_id = some w) :
    ((∃ m', transition m invoice_id a now actor comment md = .ok m') ↔
        (TRANSITIONS w.current_state a).isSome = true)
    ∧ (∀ t, TRANSITIONS w.current_state a = some t →
        transition m invoice_id a now actor comment md =
          .ok { m with
                  workflows := alistSet m.workflows invoice_id
                    { w with
                        history := w.history ++
                          [{ from_state := w.current_state
                             to_state := t
                             action := a
                             timestamp := now
                             actor := actor
                             comment := comment
                             metadata := md.getD [] }]
                        current_state := t
                        updated_at := now } })
    ∧ (TRANSITIONS w.current_state a = none →
        transition m invoice_id a now actor comment md =
            .error "Invalid transition"
          ∧ applyOp m (.trans invoice_id a now actor comment md) = m)
    ∧ (∀ (s : InvoiceState) (act : TransitionAction) (t : InvoiceState),
        TRANSITIONS s act = some t ↔ (s, act, t) ∈ specTransitionTable) := by
  have hw' : alistGet m.workflows invoice_id = some w := hw
  refine ⟨⟨?_, ?_⟩, fun t htr => transition_ok_eq m invoice_id a now actor
      comment md w hw' t htr,
    fun htr => ⟨transition_err_eq m invoice_id a now actor comment md w hw' htr,
      ?_⟩, TRANSITIONS_matches_specTable⟩
  · rintro ⟨m', hm'⟩
    cases htr : TRANSITIONS w.current_state a with
    | none =>
        rw [transition_err_eq m invoice_id a now actor comment md w hw' htr]
          at hm'
        exact absurd hm' (by simp)
    | some t => simp
  · intro hsome
    obtain ⟨t, htr⟩ := Option.isSome_iff_exists.mp hsome
    exact ⟨_, transition_ok_eq m invoice_id a now actor comment md w hw' t htr⟩
  · simp only [applyOp,
      transition_err_eq m invoice_id a now actor comment md w hw' htr]

/-- A concrete one-invoice workflow used by witnesses. -/
def wC1 : WorkflowState :=
  { invoice_id := "inv", current_state := .uploaded, created_at := 0,
    updated_at := 0 }

/-- A concrete machine holding `wC1` and no hooks. -/
def mC1 : Machine := { workflows := [("inv", wC1)], hooks := fun _ => [] }

/-- Witness for C1 at a concrete machine: the stored workflow is found and
the `start_processing` action from `uploaded` lands in `processing` with
exactly one appended history record. -/
theorem transition_follows_table_witness :
    get_workflow mC1 "inv" = some wC1 ∧
    transition mC1 "inv" .start_processing 5 none none none =
      .ok { mC1 with
              workflows := alistSet mC1.workflows "inv"
                { wC1 with
                    history := [{ from_state := .uploaded
                                  to_state := .processing
                                  action := .start_processing
                                  timestamp := 5
                                  actor := none
                                  comment := none
                                  metadata := [] }]
                    current_state := .processing
                    updated_at := 5 } } :=
  ⟨rfl,
   (transition_follows_table mC1 "inv" .start_processing 5 none none none
       wC1 rfl).2.1 .processing rfl⟩

/-- Inversion of a successful `transition`: the workflow existed, the pair
was in the table, and the result machine stores the advanced workflow. -/
theorem transition_ok_inv (m : Machine) (invoice_id : String)
    (a : TransitionAction) (now : ℕ) (actor comment : Option String)
    (md : Option (List (String × PyVal))) (m' : Machine)
    (h : transition m invoice_id a now actor comment md = .ok m') :
    ∃ w t, alistGet m.workflows invoice_id = some w ∧
      TRANSITIONS w.current_state a = some t ∧
      m' = { m with
               workflows := alistSet m.workflows invoice_id
                 { w with
                     history := w.history ++
                       [{ from_state := w.current_state
                          to_state := t
                          action := a
                          timestamp := now
                          actor := actor
                          comment := comment
                          metadata := md.getD [] }]
                     current_state := t
                     updated_at := now } } := by
  cases hlk : alistGet m.workflows invoice_id with
  | none => simp [transition, hlk] at h
  | some w =>
    cases htr : TRANSITIONS w.current_state a with
    | none =>
        rw [transition_err_eq m invoice_id a now actor comment md w hlk htr]
          at h
        exact absurd h (by simp)
    | some t =>
        rw [transition_ok_eq m invoice_id a now actor comment md w hlk t htr]
          at h
        exact ⟨w, t, rfl, htr, (Except.ok.inj h).symm⟩

/-- The per-machine invariant: every stored workflow whose history is
non-empty has its last recorded `to_state` equal to its current state. -/
def MachineInv (m : Machine) : Prop :=
  ∀ id w, alistGet m.workflows id = some w →
    ∀ tr, w.history.getLast? = some tr → tr.to_state = w.current_state

/-- Both `create_workflow` and caught `transition` calls preserve the
history/current-state invariant. -/
theorem machineInv_applyOp (m : Machine) (op : Op) (hm : MachineInv m) :
    MachineInv (applyOp m op) := by
  cases op with
  | create invoice_id initial now =>
      intro id w hlk tr hlast
      simp only [applyOp, create_workflow] at hlk
      rw [alistGet_alistSet] at hlk
      by_cases hid : invoice_id = id
      · simp [hid] at hlk
        subst hlk
        simp at hlast
      · simp [hid] at hlk
        exact hm id w hlk tr hlast
  | trans invoice_id a now actor comment md =>
      cases h : transition m invoice_id a now actor comment md with
      | error e =>
          intro id w hlk tr hlast
          simp only [applyOp, h] at hlk
          exact hm id w hlk tr hlast
      | ok m' =>
          intro id w hlk tr hlast
          simp only [applyOp, h] at hlk
          obtain ⟨w0, t, hlk0, htr0, hm'⟩ :=
            transition_ok_inv m invoice_id a now actor comment md m' h
          subst hm'
          simp only at hlk
          rw [alistGet_alistSet] at hlk
          by_cases hid : invoice_id = id
          · simp [hid] at hlk
            subst hlk
            simp only [List.getLast?_concat, Option.some.injEq] at hlast
            subst hlast
            rfl
          · simp [hid] at hlk
            exact hm id w hlk tr hlast

/-- Any sequence of calls preserves the invariant. -/
theorem machineInv_runOps (m : Machine) (ops : List Op) (hm : MachineInv m) :
    MachineInv (runOps m ops) := by
  induction ops generalizing m with
  | nil => exact hm
  | cons op rest ih => exact ih (applyOp m op) (machineInv_applyOp m op hm)

/-- C8.  After any sequence of `create_workflow` and `transition` calls
(raising transitions caught by the caller), every stored workflow with a
non-empty history has the `to_state` of its last history record equal to
its current state — for an arbitrary hook registry, so in particular when
every state-entry hook raises, since hook outcomes are swallowed and never
roll the transition back. -/
theorem history_last_matches_current
    (hooks : InvoiceState → List Hook) (ops : List Op) (invoice_id : String)
    (w : WorkflowState)
    (hw : get_workflow (runOps (emptyMachine hooks) ops) invoice_id = some w)
    (tr : StateTransition) (hlast : w.history.getLast? = some tr) :
    tr.to_state = w.current_state := by
  have hbase : MachineInv (emptyMachine hooks) := by
    intro id w hlk
    simp [emptyMachine, alistGet] at hlk
  exact machineInv_runOps (emptyMachine hooks) ops hbase invoice_id w hw tr
    hlast

/-- A hook registry where every hook raises, for the C8 witness. -/
def hooksC8 : InvoiceState → List Hook := fun _ => [fun _ => .error "hook failed"]

/-- Create an invoice then advance it once, for the C8 witness. -/
def opsC8 : List Op :=
  [.create "a" .uploaded 0, .trans "a" .start_processing 1 none none none]

/-- The single history record of the C8 witness workflow. -/
def trC8 : StateTransition :=
  { from_state := .uploaded
    to_state := .processing
    action := .start_processing
    timestamp := 1
    actor := none
    comment := none
    metadata := [] }

/-- The workflow stored after `opsC8`. -/
def wC8 : WorkflowState :=
  { invoice_id := "a"
    current_state := .processing
    history := [trC8]
    created_at := 0
    updated_at := 1 }

/-- Witness for C8: after a create and one transition under an
always-raising hook registry, the last history record's `to_state` equals
the current state. -/
theorem history_last_matches_current_witness :
    get_workflow (runOps (emptyMachine hooksC8) opsC8) "a" = some wC8 ∧
    wC8.history.getLast? = some trC8 ∧
    trC8.to_state = wC8.current_state :=
  ⟨rfl, rfl,
   history_last_matches_current hooksC8 opsC8 "a" wC8 rfl trC8 rfl⟩

end StateMachineProofs

section MessageQueueProofs

open MessageQueueM

/-- The `EventType` enum constructor inverts `.value`. -/
theorem EventType_ofValue_value (e : EventType) :
    EventType.ofValue e.value = some e := by
  cases e <;> rfl

/-- The `MessagePriority` enum constructor inverts `.value`. -/
theorem MessagePriority_ofValue_value (p : MessagePriority) :
    MessagePriority.ofValue p.value = some p := by
  cases p <;> rfl

/-- C9.  Serializing a message with `to_dict` and deserializing with
`from_dict` restores every field: id, event_type, data, priority,
correlation_id, timestamp, retry_count and max_retries — whatever the
clock reads inside `from_dict`'s `Message` constructor happen to be. -/
theorem message_roundtrip (m : Message) (now : ℕ) :
    Message.from_dict now m.to_dict = some m := by
  obtain ⟨id, et, data, p, corr, ts, rc, mr⟩ := m
  cases et <;> cases p <;> rfl

/-- A handler that always raises, used by the C2 counterexample. -/
def failingHandler : Handler := fun _ => .error "boom"

/-- A freshly constructed message (retry_count 0, max_retries 3). -/
def msgC2 : Message := mkMessage 0 .invoice_uploaded (.vDict []) .normal none

/-- C2 counterexample.  A message whose retry count is strictly below its
retry limit is dead-lettered on the first failed delivery anyway: the bus
pushes a DLQ entry immediately, so "dead-letter only once
retry_count >= max_retries" is false, and no re-enqueue effect exists in
`_handle_message` at all. -/
theorem deadletter_ignores_retry_count :
    msgC2.retry_count < msgC2.max_retries ∧
    handle_message 5 [failingHandler] msgC2 = [send_to_dlq 5 msgC2 "boom"] :=
  ⟨by decide, rfl⟩

/-- C2 as amended.  `_handle_message` produces exactly one DLQ entry per
handler that raises (in handler order, carrying the serialized message,
the error text and the failure time) and nothing else: no re-enqueue, no
backoff, and no change to `retry_count` — the retry fields never influence
the control flow. -/
theorem handle_message_dlq_per_failing_handler (now : ℕ)
    (handlers : List Handler) (m : Message) :
    handle_message now handlers m =
      handlers.filterMap (fun h =>
        match h m with
        | .ok _ => none
        | .error e => some (send_to_dlq now m e)) := by
  have aux : ∀ (hs : List Handler) (acc : List (List (String × DVal))),
      hs.foldl
        (fun dlq h =>
          match h m with
          | .ok _ => dlq
          | .error e => dlq ++ [send_to_dlq now m e]) acc =
      acc ++ hs.filterMap (fun h =>
        match h m with
        | .ok _ => none
        | .error e => some (send_to_dlq now m e)) := by
    intro hs
    induction hs with
    | nil => intro acc; simp
    | cons h rest ih =>
        intro acc
        cases hh : h m with
        | ok u => simp [List.foldl, List.filterMap, hh, ih]
        | error e =>
            simp [List.foldl, List.filterMap, hh, ih]
  simpa using aux handlers []

end MessageQueueProofs

section SlaProofs

open SLAM

/-- The SLA record of the C3 failing input: one hour to the deadline,
checked one hour past it, never escalated before. -/
def slaC3 : SLARecord := { invoice_id := "inv-1", created_at := 0, deadline := 3600 }

/-- C3.  On a record whose deadline has passed and whose escalation level
is `none`, `get_escalation_action` marks the record BREACHED but returns no
action and leaves the escalation level at `none`: the guard compares the
`str`-enum members lexicographically and `"none" < "executive"` is false.
The claim (escalate to `executive`) describes the intended ladder, so this
is a code bug at this input. -/
theorem breached_record_not_escalated :
    get_escalation_action {} slaC3 7200 =
      (Option.none,
       { slaC3 with status := .breached, breached_at := some 7200 }) := by
  have hlt : pyStrLt (EscalationLevel.none).value
      (EscalationLevel.executive).value = false := by decide
  have hcs : check_sla {} slaC3 7200 =
      { slaC3 with status := .breached, breached_at := some 7200 } := by
    simp only [check_sla, slaC3]
    norm_num
    decide
  simp only [get_escalation_action, hcs]
  simp [slaC3, hlt]

end SlaProofs

section RiskProofs

open RiskScoringM

/-- Every produced amount-deviation indicator has a score in [0, 1]. -/
theorem check_amount_deviation_score_bounds (inv : InvoiceData)
    (hist : VendorHistory) (i : RiskIndicator)
    (h : check_amount_deviation inv hist = some i) :
    0 ≤ i.score ∧ i.score ≤ 1 := by
  unfold check_amount_deviation at h
  dsimp only at h
  split_ifs at h with h1 h2
  obtain rfl : i = _ := (Option.some.inj h).symm
  constructor
  · exact le_min (le_of_lt (lt_trans (by norm_num) h2)) (by norm_num)
  · exact min_le_right _ _

/-- Every produced new-vendor indicator has a score in [0, 1]. -/
theorem check_new_vendor_score_bounds (hist : VendorHistory)
    (i : RiskIndicator) (h : check_new_vendor hist = some i) :
    0 ≤ i.score ∧ i.score ≤ 1 := by
  unfold check_new_vendor at h
  split_ifs at h <;>
    · obtain rfl : i = _ := (Option.some.inj h).symm
      norm_num

/-- Every produced missing-PO indicator has a score in [0, 1]. -/
theorem check_missing_po_score_bounds (inv : InvoiceData)
    (i : RiskIndicator) (h : check_missing_po inv = some i) :
    0 ≤ i.score ∧ i.score ≤ 1 := by
  unfold check_missing_po at h
  split_ifs at h
  obtain rfl : i = _ := (Option.some.inj h).symm
  norm_num

/-- Every produced round-amount indicator has a score in [0, 1]. -/
theorem check_round_amount_score_bounds (inv : InvoiceData)
    (i : RiskIndicator) (h : check_round_amount inv = some i) :
    0 ≤ i.score ∧ i.score ≤ 1 := by
  unfold check_round_amount at h
  split_ifs at h
  obtain rfl : i = _ := (Option.some.inj h).symm
  norm_num

/-- Every produced rush-payment indicator has a score in [0, 1]. -/
theorem check_rush_payment_score_bounds (inv : InvoiceData)
    (i : RiskIndicator) (h : check_rush_payment inv = some i) :
    0 ≤ i.score ∧ i.score ≤ 1 := by
  unfold check_rush_payment at h
  dsimp only at h
  split_ifs at h
  obtain rfl : i = _ := (Option.some.inj h).symm
  norm_num

/-- Every produced threshold-splitting indicator has a score in [0, 1]. -/
theorem check_threshold_splitting_score_bounds (inv : InvoiceData)
    (cfg : CompanyConfig) (i : RiskIndicator)
    (h : check_threshold_splitting inv cfg = some i) :
    0 ≤ i.score ∧ i.score ≤ 1 := by
  unfold check_threshold_splitting at h
  cases ht : thresholdHit inv.total_amount cfg.approval_thresholds with
  | none => rw [ht] at h; exact absurd h (by simp)
  | some t =>
      rw [ht] at h
      obtain rfl : i = _ := (Option.some.inj h).symm
      norm_num

/-- Every indicator `assess` produces has a score in [0, 1]. -/
theorem indicatorsOf_score_bounds (inv : InvoiceData) (hist : VendorHistory)
    (cfg : CompanyConfig) :
    ∀ i ∈ indicatorsOf inv hist cfg, 0 ≤ i.score ∧ i.score ≤ 1 := by
  intro i hi
  simp only [indicatorsOf, List.mem_filterMap, List.mem_cons,
    List.not_mem_nil, or_false, id_eq] at hi
  obtain ⟨o, ho, hoi⟩ := hi
  subst hoi
  rcases ho with h | h | h | h | h | h
  · exact check_amount_deviation_score_bounds inv hist _ h.symm
  · exact check_new_vendor_score_bounds hist _ h.symm
  · exact check_missing_po_score_bounds inv _ h.symm
  · exact check_round_amount_score_bounds inv _ h.symm
  · exact check_rush_payment_score_bounds inv _ h.symm
  · exact check_threshold_splitting_score_bounds inv cfg _ h.symm

/-- Every factor weight of the default scorer is positive. -/
theorem FACTOR_WEIGHTS_pos (f : RiskFactor) : 0 < FACTOR_WEIGHTS f := by
  cases f <;> norm_num [FACTOR_WEIGHTS]

/-- The aggregated weighted score lies in [0, 1] whenever every indicator
score does. -/
theorem weightedScore_bounds (l : List RiskIndicator)
    (h : ∀ i ∈ l, 0 ≤ i.score ∧ i.score ≤ 1) :
    0 ≤ weightedScore l ∧ weightedScore l ≤ 1 := by
  unfold weightedScore
  by_cases hl : l = []
  · rw [if_pos hl]
    norm_num
  · rw [if_neg hl]
    have hwpos : 0 < (l.map (fun i => FACTOR_WEIGHTS i.factor)).sum := by
      apply List.sum_pos
      · intro x hx
        simp only [List.mem_map] at hx
        obtain ⟨i, _, rfl⟩ := hx
        exact FACTOR_WEIGHTS_pos i.factor
      · simpa using hl
    have hnn : 0 ≤ (l.map (fun i => i.score * FACTOR_WEIGHTS i.factor)).sum := by
      apply List.sum_nonneg
      intro x hx
      simp only [List.mem_map] at hx
      obtain ⟨i, hi, rfl⟩ := hx
      exact mul_nonneg (h i hi).1 (le_of_lt (FACTOR_WEIGHTS_pos i.factor))
    have hle : (l.map (fun i => i.score * FACTOR_WEIGHTS i.factor)).sum ≤
        (l.map (fun i => FACTOR_WEIGHTS i.factor)).sum := by
      apply List.sum_le_sum
      intro i hi
      calc i.score * FACTOR_WEIGHTS i.factor
          ≤ 1 * FACTOR_WEIGHTS i.factor :=
            mul_le_mul_of_nonneg_right (h i hi).2
              (le_of_lt (FACTOR_WEIGHTS_pos i.factor))
        _ = FACTOR_WEIGHTS i.factor := one_mul _
    exact ⟨div_nonneg hnn (le_of_lt hwpos), (div_le_one hwpos).mpr hle⟩

/-- Half-even rounding never undershoots the floor. -/
theorem floor_le_rhe (x : ℚ) : ⌊x⌋ ≤ rhe x := by
  unfold rhe
  dsimp only
  split_ifs <;> omega

/-- Half-even rounding exceeds the argument by at most one half. -/
theorem rhe_le_add_half (x : ℚ) : (rhe x : ℚ) ≤ x + 1/2 := by
  have hfl : (⌊x⌋ : ℚ) ≤ x := Int.floor_le x
  have hfr : x - (⌊x⌋ : ℚ) < 1 := by
    have := Int.lt_floor_add_one x
    linarith
  unfold rhe
  dsimp only
  split_ifs with h1 h2 h3 <;> push_cast <;> linarith

/-- Rounding to three decimals keeps a value inside [0, 1]. -/
theorem round3_bounds (q : ℚ) (h0 : 0 ≤ q) (h1 : q ≤ 1) :
    0 ≤ round3 q ∧ round3 q ≤ 1 := by
  unfold round3
  constructor
  · have hfl : (0 : ℤ) ≤ ⌊q * 1000⌋ := Int.floor_nonneg.mpr (by positivity)
    have h2 : (0 : ℤ) ≤ rhe (q * 1000) := le_trans hfl (floor_le_rhe _)
    have h3 : (0 : ℚ) ≤ (rhe (q * 1000) : ℚ) := by exact_mod_cast h2
    linarith
  · have h2 : (rhe (q * 1000) : ℚ) ≤ q * 1000 + 1/2 := rhe_le_add_half _
    have h3 : (rhe (q * 1000) : ℚ) < 1001 := by linarith
    have h4 : rhe (q * 1000) < (1001 : ℤ) := by exact_mod_cast h3
    have h5 : rhe (q * 1000) ≤ (1000 : ℤ) := by omega
    have h6 : (rhe (q * 1000) : ℚ) ≤ 1000 := by exact_mod_cast h5
    linarith

/-- The level-selection loop equals the spec's smallest-bucket choice on
the same (un-rounded) score, with `low` as the fallback. -/
theorem pickLevel_eq_smallestBucket (q : ℚ) :
    pickLevel q = (smallestBucket q).getD .low := by
  unfold pickLevel smallestBucket levelBuckets
  rcases le_or_lt q (3/10) with h1 | h1
  · rw [if_pos h1, List.find?_cons_of_pos _ (by simpa using h1)]
    rfl
  · rw [if_neg (not_le.mpr h1),
      List.find?_cons_of_neg _ (by simpa using not_le.mpr h1)]
    rcases le_or_lt q (1/2) with h2 | h2
    · rw [if_pos h2, List.find?_cons_of_pos _ (by simpa using h2)]
      rfl
    · rw [if_neg (not_le.mpr h2),
        List.find?_cons_of_neg _ (by simpa using not_le.mpr h2)]
      rcases le_or_lt q (7/10) with h3 | h3
      · rw [if_pos h3, List.find?_cons_of_pos _ (by simpa using h3)]
        rfl
      · rw [if_neg (not_le.mpr h3),
          List.find?_cons_of_neg _ (by simpa using not_le.mpr h3)]
        rcases le_or_lt q 1 with h4 | h4
        · rw [if_pos h4, List.find?_cons_of_pos _ (by simpa using h4)]
          rfl
        · rw [if_neg (not_le.mpr h4),
            List.find?_cons_of_neg _ (by simpa using not_le.mpr h4)]
          rfl

/-- C4 as amended.  The reported `overall_score` lies in [0, 1] and equals
the weighted aggregation of the produced indicators rounded half-even to
three decimals (0 with no indicators), and the reported `level` is the
smallest bucket (0.3 low, 0.5 medium, 0.7 high, 1.0 critical) whose
threshold is at or above the *un-rounded* weighted score. -/
theorem assess_score_bounds_and_level (inv : InvoiceData)
    (hist : VendorHistory) (cfg : CompanyConfig) :
    (0 ≤ (assess inv hist cfg).overall_score ∧
      (assess inv hist cfg).overall_score ≤ 1)
    ∧ (assess inv hist cfg).overall_score =
        round3 (weightedScore (indicatorsOf inv hist cfg))
    ∧ (assess inv hist cfg).level =
        (smallestBucket (weightedScore (indicatorsOf inv hist cfg))).getD
          .low := by
  have hb := weightedScore_bounds (indicatorsOf inv hist cfg)
    (indicatorsOf_score_bounds inv hist cfg)
  have hover : (assess inv hist cfg).overall_score =
      round3 (weightedScore (indicatorsOf inv hist cfg)) := rfl
  have hlevel : (assess inv hist cfg).level =
      pickLevel (weightedScore (indicatorsOf inv hist cfg)) := rfl
  refine ⟨?_, hover, ?_⟩
  · rw [hover]
    exact round3_bounds _ hb.1 hb.2
  · rw [hlevel, pickLevel_eq_smallestBucket]

end RiskProofs

section RiskCounterProofs

open RiskScoringM

/-- Invoice of the C4 counterexample: amount 15001 against a vendor
average of 10000 (deviation 0.5001), everything else unremarkable. -/
def invC4 : InvoiceData :=
  { total_amount := 15001, po_number := some "PO-1", payment_terms := "net 30" }

/-- Vendor history of the C4 counterexample. -/
def histC4 : VendorHistory :=
  { average_invoice_amount := 10000, total_invoices := 5 }

/-- C4 counterexample.  At deviation 0.5001 the weighted score is 0.5001,
so the code picks level `high`, while the reported `overall_score` rounds
to 0.5, whose smallest bucket is `medium`: the level is *not* the smallest
bucket whose threshold is at or above `overall_score`. -/
theorem assess_level_vs_rounded_score :
    (assess invC4 histC4 {}).level = RiskLevel.high ∧
    (assess invC4 histC4 {}).overall_score = 1/2 ∧
    smallestBucket ((assess invC4 histC4 {}).overall_score) =
      some RiskLevel.medium := by
  have h1 : check_amount_deviation invC4 histC4 =
      some { factor := .amount_deviation, weight := 1/5, score := 5001/10000 } := by
    unfold check_amount_deviation invC4 histC4
    dsimp only
    rw [if_neg (by norm_num), if_pos (by norm_num)]
    norm_num [FACTOR_WEIGHTS, min_def]
  have h2 : check_new_vendor histC4 = none := by
    unfold check_new_vendor histC4
    rw [if_neg (by norm_num)]
  have h3 : check_missing_po invC4 = none := by
    unfold check_missing_po invC4
    rw [if_neg (by simp)]
  have h4 : check_round_amount invC4 = none := by
    unfold check_round_amount invC4
    rw [if_neg (by norm_num [pyMod])]
  have h5 : check_rush_payment invC4 = none := by
    unfold check_rush_payment invC4
    dsimp only
    rw [if_neg (by decide)]
  have h6 : check_threshold_splitting invC4 {} = none := by
    have hdef : ({} : CompanyConfig).approval_thresholds =
        [1000, 5000, 10000, 25000] := rfl
    unfold check_threshold_splitting invC4
    rw [hdef]
    unfold thresholdHit
    rw [if_neg (by norm_num)]
    unfold thresholdHit
    rw [if_neg (by norm_num)]
    unfold thresholdHit
    rw [if_neg (by norm_num)]
    unfold thresholdHit
    rw [if_neg (by norm_num)]
    rfl
  have hind : indicatorsOf invC4 histC4 {} =
      [{ factor := .amount_deviation, weight := 1/5, score := 5001/10000 }] := by
    unfold indicatorsOf
    rw [h1, h2, h3, h4, h5, h6]
    rfl
  have hws : weightedScore (indicatorsOf invC4 histC4 {}) = 5001/10000 := by
    rw [hind]
    unfold weightedScore
    rw [if_neg (by simp)]
    norm_num [FACTOR_WEIGHTS]
  have hlevel : (assess invC4 histC4 {}).level =
      pickLevel (weightedScore (indicatorsOf invC4 histC4 {})) := rfl
  have hover : (assess invC4 histC4 {}).overall_score =
      round3 (weightedScore (indicatorsOf invC4 histC4 {})) := rfl
  refine ⟨?_, ?_, ?_⟩
  · rw [hlevel, hws]
    unfold pickLevel
    rw [if_neg (by norm_num), if_neg (by norm_num), if_pos (by norm_num)]
  · rw [hover, hws]
    unfold round3 rhe
    dsimp only
    rw [show ⌊(5001 : ℚ)/10000 * 1000⌋ = 500 by norm_num,
      if_pos (by norm_num)]
    norm_num
  · rw [hover, hws]
    have : round3 (5001/10000) = 1/2 := by
      unfold round3 rhe
      dsimp only
      rw [show ⌊(5001 : ℚ)/10000 * 1000⌋ = 500 by norm_num,
        if_pos (by norm_num)]
      norm_num
    rw [this]
    unfold smallestBucket levelBuckets
    rw [List.find?_cons_of_neg _ (by norm_num),
      List.find?_cons_of_pos _ (by norm_num)]
    rfl

end RiskCounterProofs

section ThresholdProofs

open RiskScoringM

/-- The threshold loop finds a hit exactly when some configured threshold
brackets the amount in [0.85·t, 0.98·t). -/
theorem thresholdHit_isSome_iff (amount : ℚ) (ths : List ℚ) :
    (thresholdHit amount ths).isSome = true ↔
      ∃ t ∈ ths, t * (85/100) ≤ amount ∧ amount < t * (98/100) := by
  induction ths with
  | nil => simp [thresholdHit]
  | cons t rest ih =>
      unfold thresholdHit
      by_cases h : t * (85/100) ≤ amount ∧ amount < t * (98/100)
      · rw [if_pos h]
        simp only [Option.isSome_some, true_iff]
        exact ⟨t, List.mem_cons_self t rest, h⟩
      · rw [if_neg h]
        rw [ih]
        constructor
        · rintro ⟨x, hx, hc⟩
          exact ⟨x, List.mem_cons_of_mem _ hx, hc⟩
        · rintro ⟨x, hx, hc⟩
          rcases List.mem_cons.mp hx with rfl | hx'
          · exact absurd hc h
          · exact ⟨x, hx', hc⟩

/-- `check_threshold_splitting` evaluated on the default thresholds at
4999: no bracket contains it (0.98·5000 = 4900 ≤ 4999), so no indicator. -/
theorem threshold_splitting_silent_at_4999 :
    check_threshold_splitting { total_amount := 4999 } {} = none := by
  have hdef : ({} : CompanyConfig).approval_thresholds =
      [1000, 5000, 10000, 25000] := rfl
  unfold check_threshold_splitting
  rw [hdef]
  unfold thresholdHit
  rw [if_neg (by norm_num)]
  unfold thresholdHit
  rw [if_neg (by norm_num)]
  unfold thresholdHit
  rw [if_neg (by norm_num)]
  unfold thresholdHit
  rw [if_neg (by norm_num)]
  rfl

/-- C5 as amended.  With the default thresholds the THRESHOLD_SPLITTING
check produces no indicator at 4999, 4249 or 5000, and in general it fires
(with score 0.6 and weight 0.2) exactly when the amount lies in
[0.85·T, 0.98·T) for some configured threshold T — 4999 lies above
0.98·5000 = 4900, so it is not flagged. -/
theorem threshold_splitting_spec :
    check_threshold_splitting { total_amount := 4999 } {} = none ∧
    check_threshold_splitting { total_amount := 4249 } {} = none ∧
    check_threshold_splitting { total_amount := 5000 } {} = none ∧
    (∀ (inv : InvoiceData) (cfg : CompanyConfig),
      (check_threshold_splitting inv cfg).isSome = true ↔
        ∃ t ∈ cfg.approval_thresholds,
          t * (85/100) ≤ inv.total_amount ∧
            inv.total_amount < t * (98/100)) ∧
    (∀ (inv : InvoiceData) (cfg : CompanyConfig) (i : RiskIndicator),
      check_threshold_splitting inv cfg = some i →
        i = { factor := .threshold_splitting, weight := 1/5, score := 3/5 }) := by
  have hdef : ({} : CompanyConfig).approval_thresholds =
      [1000, 5000, 10000, 25000] := rfl
  refine ⟨?_, ?_, ?_, ?_, ?_⟩
  · unfold check_threshold_splitting
    rw [hdef]
    unfold thresholdHit
    rw [if_neg (by norm_num)]
    unfold thresholdHit
    rw [if_neg (by norm_num)]
    unfold thresholdHit
    rw [if_neg (by norm_num)]
    unfold thresholdHit
    rw [if_neg (by norm_num)]
    rfl
  · unfold check_threshold_splitting
    rw [hdef]
    unfold thresholdHit
    rw [if_neg (by norm_num)]
    unfold thresholdHit
    rw [if_neg (by norm_num)]
    unfold thresholdHit
    rw [if_neg (by norm_num)]
    unfold thresholdHit
    rw [if_neg (by norm_num)]
    rfl
  · unfold check_threshold_splitting
    rw [hdef]
    unfold thresholdHit
    rw [if_neg (by norm_num)]
    unfold thresholdHit
    rw [if_neg (by norm_num)]
    unfold thresholdHit
    rw [if_neg (by norm_num)]
    unfold thresholdHit
    rw [if_neg (by norm_num)]
    rfl
  · intro inv cfg
    rw [← thresholdHit_isSome_iff inv.total_amount cfg.approval_thresholds]
    unfold check_threshold_splitting
    cases thresholdHit inv.total_amount cfg.approval_thresholds <;> simp
  · intro inv cfg i h
    unfold check_threshold_splitting at h
    cases ht : thresholdHit inv.total_amount cfg.approval_thresholds with
    | none => rw [ht] at h; exact absurd h (by simp)
    | some t =>
        rw [ht] at h
        exact ((Option.some.inj h).symm).trans (by norm_num [FACTOR_WEIGHTS])

end ThresholdProofs

section DuplicateProofs

open DuplicateDetectionM

/-- A hash-strategy match always carries confidence 1.0. -/
theorem check_hash_duplicate_confidence (st : DetectorState) (ch t : String)
    (m : DuplicateMatch) (h : check_hash_duplicate st ch t = some m) :
    m.confidence = 1 := by
  unfold check_hash_duplicate at h
  dsimp only at h
  cases hk : alistGet st.hash_index (t ++ ":" ++ ch) with
  | none => rw [hk] at h; exact absurd h (by simp)
  | some recs =>
      rw [hk] at h
      cases recs with
      | nil => exact absurd h (by simp)
      | cons r rest => rw [← Option.some.inj h]

/-- A vendor-plus-invoice-number match always carries confidence 0.95. -/
theorem check_vendor_invoice_duplicate_confidence (st : DetectorState)
    (vendor_name : String) (vendor_id : Option String)
    (invoice_number tenant_id : String) (m : DuplicateMatch)
    (h : check_vendor_invoice_duplicate st vendor_name vendor_id
        invoice_number tenant_id = some m) :
    m.confidence = 95/100 := by
  unfold check_vendor_invoice_duplicate at h
  dsimp only at h
  split_ifs at h
  rcases hk : alistGet st.vendor_index _ with _ | recs
  · rw [hk] at h; exact absurd h (by simp)
  · rw [hk] at h
    cases recs with
    | nil => exact absurd h (by simp)
    | cons r rest =>
        dsimp only at h
        rw [← Option.some.inj h]

/-- A similar-amount match found by the record loop always carries
confidence 0.7. -/
theorem similarLoop_confidence (now amount : ℚ) (recs : List DupRecord)
    (m : DuplicateMatch) (h : similarLoop now amount recs = .ok (some m)) :
    m.confidence = 7/10 := by
  induction recs with
  | nil => simp [similarLoop] at h
  | cons r rest ih =>
      unfold similarLoop at h
      dsimp only at h
      split_ifs at h
      · exact ih h
      · cases hr : r.amount with
        | none => rw [hr] at h; exact absurd h (by simp)
        | some ra =>
            rw [hr] at h
            dsimp only at h
            split_ifs at h with hsim
            · rw [← Option.some.inj (Except.ok.inj h)]
            · exact ih h

/-- A similar-amount match always carries confidence 0.7. -/
theorem check_similar_invoice_confidence (st : DetectorState)
    (vendor_name : String) (amount : ℚ) (tenant_id : String) (now : ℚ)
    (m : DuplicateMatch)
    (h : check_similar_invoice st vendor_name amount tenant_id now =
      .ok (some m)) :
    m.confidence = 7/10 := by
  unfold check_similar_invoice at h
  split_ifs at h with h1
  · exact absurd (Except.ok.inj h) (by simp)
  · dsimp only at h
    cases hk : alistGet st.vendor_index (tenant_id ++ ":" ++ pyLower vendor_name) with
    | none => rw [hk] at h; exact absurd (Except.ok.inj h) (by simp)
    | some recs =>
        rw [hk] at h
        exact similarLoop_confidence now amount recs m h

/-- Inserting an element at or above the head confidence prepends it. -/
theorem insertDesc_of_ge (x : DuplicateMatch) (l : List DuplicateMatch)
    (h : ∀ y ∈ l.head?, y.confidence ≤ x.confidence) :
    insertDesc x l = x :: l := by
  cases l with
  | nil => rfl
  | cons y ys =>
      unfold insertDesc
      rw [if_pos (h y rfl)]

/-- The stable descending sort leaves an already-descending list alone. -/
theorem sortDesc_of_sorted (l : List DuplicateMatch)
    (h : l.Sorted (fun a b => b.confidence ≤ a.confidence)) :
    sortDesc l = l := by
  induction l with
  | nil => rfl
  | cons x xs ih =>
      rw [List.sorted_cons] at h
      unfold sortDesc
      rw [ih h.2]
      apply insertDesc_of_ge
      intro y hy
      cases xs with
      | nil => simp at hy
      | cons z zs =>
          have hz : z = y := by simpa using hy
          rw [← hz]
          exact h.1 z (List.mem_cons_self z zs)

/-- C6 as amended.  Whenever the similar-amount strategy does not raise
(`TypeError` is possible when an indexed record stores a `None` amount),
`check_all` returns exactly the matches of the three strategies in order —
exact hash (confidence 1.0), vendor plus invoice number (0.95), recent
similar amount (0.7) — which is already sorted by confidence descending,
and the result is empty exactly when no strategy matched. -/
theorem check_all_sorted_matches (st : DetectorState) (ch t : String)
    (vn vid inum : Option String) (am : Option ℚ) (now : ℚ)
    (hashM vendM simM : Option DuplicateMatch)
    (hh : check_hash_duplicate st ch t = hashM)
    (hv : (if truthyS vn ∧ truthyS inum then
        check_vendor_invoice_duplicate st (vn.getD "") vid (inum.getD "") t
      else none) = vendM)
    (hs : (if truthyS vn ∧ truthyQ am then
        check_similar_invoice st (vn.getD "") (am.getD 0) t now
      else Except.ok none) = .ok simM) :
    check_all st ch t vn vid inum am now =
        .ok (hashM.toList ++ vendM.toList ++ simM.toList)
    ∧ (hashM.toList ++ vendM.toList ++ simM.toList).Sorted
        (fun a b => b.confidence ≤ a.confidence)
    ∧ ((hashM.toList ++ vendM.toList ++ simM.toList) = [] ↔
        hashM = none ∧ vendM = none ∧ simM = none) := by
  have hconf1 : ∀ m, hashM = some m → m.confidence = 1 := by
    intro m hm
    exact check_hash_duplicate_confidence st ch t m (hh.trans hm)
  have hconf2 : ∀ m, vendM = some m → m.confidence = 95/100 := by
    intro m hm
    rw [← hv] at hm
    split_ifs at hm
    exact check_vendor_invoice_duplicate_confidence st (vn.getD "") vid
      (inum.getD "") t m hm
  have hconf3 : ∀ m, simM = some m → m.confidence = 7/10 := by
    intro m hm
    subst hm
    split_ifs at hs with hcond
    · exact check_similar_invoice_confidence st (vn.getD "") (am.getD 0) t
        now m hs
    · exact absurd (Except.ok.inj hs) (by simp)
  have hsorted : (hashM.toList ++ vendM.toList ++ simM.toList).Sorted
      (fun a b => b.confidence ≤ a.confidence) := by
    cases hashM with
    | none =>
        cases vendM with
        | none =>
            cases simM with
            | none => simp
            | some c => simp
        | some b =>
            cases simM with
            | none => simp
            | some c =>
                simp only [Option.toList, List.nil_append, List.append_nil,
                  List.cons_append, List.nil_append]
                rw [List.sorted_cons]
                refine ⟨?_, by simp⟩
                intro y hy
                have hyc : y = c := by simpa using hy
                rw [hyc, hconf2 b rfl, hconf3 c rfl]
                norm_num
    | some a =>
        cases vendM with
        | none =>
            cases simM with
            | none => simp
            | some c =>
                simp only [Option.toList, List.nil_append, List.append_nil,
                  List.cons_append, List.nil_append]
                rw [List.sorted_cons]
                refine ⟨?_, by simp⟩
                intro y hy
                have hyc : y = c := by simpa using hy
                rw [hyc, hconf1 a rfl, hconf3 c rfl]
                norm_num
        | some b =>
            cases simM with
            | none =>
                simp only [Option.toList, List.append_nil, List.cons_append,
                  List.nil_append]
                rw [List.sorted_cons]
                refine ⟨?_, by simp⟩
                intro y hy
                have hyb : y = b := by simpa using hy
                rw [hyb, hconf1 a rfl, hconf2 b rfl]
                norm_num
            | some c =>
                simp only [Option.toList, List.cons_append, List.nil_append]
                rw [List.sorted_cons]
                constructor
                · intro y hy
                  rcases List.mem_cons.mp hy with hyb | hy'
                  · rw [hyb, hconf1 a rfl, hconf2 b rfl]; norm_num
                  · have hyc : y = c := by simpa using hy'
                    rw [hyc, hconf1 a rfl, hconf3 c rfl]; norm_num
                · rw [List.sorted_cons]
                  refine ⟨?_, by simp⟩
                  intro y hy
                  have hyc : y = c := by simpa using hy
                  rw [hyc, hconf2 b rfl, hconf3 c rfl]
                  norm_num
  refine ⟨?_, hsorted, ?_⟩
  · unfold check_all
    rw [hh, hv, hs]
    dsimp only
    rw [sortDesc_of_sorted _ hsorted]
  · cases hashM <;> cases vendM <;> cases simM <;> simp

end DuplicateProofs

section DuplicateWitnessProofs

open DuplicateDetectionM

/-- Detector state of the C6 witness: one registered document whose hash
matches the query. -/
def stC6 : DetectorState :=
  { hash_index :=
      [("t:h1", [{ document_id := "d0", upload_date := some 0,
                   amount := some 100, invoice_number := some "N-1" }])],
    vendor_index := [] }

/-- The hash match the C6 witness expects. -/
def mHC6 : DuplicateMatch :=
  { original_id := "d0", match_type := "exact_hash", confidence := 1 }

/-- Witness for C6: on a state with one hash hit and no other strategy
applicable, `check_all` returns exactly that match, sorted trivially. -/
theorem check_all_sorted_matches_witness :
    check_all stC6 "h1" "t" none none none none 0 =
        .ok ((some mHC6).toList ++ (none : Option DuplicateMatch).toList ++
          (none : Option DuplicateMatch).toList)
    ∧ ((some mHC6).toList ++ (none : Option DuplicateMatch).toList ++
        (none : Option DuplicateMatch).toList).Sorted
        (fun a b => b.confidence ≤ a.confidence)
    ∧ (((some mHC6).toList ++ (none : Option DuplicateMatch).toList ++
        (none : Option DuplicateMatch).toList) = [] ↔
        some mHC6 = none ∧ (none : Option DuplicateMatch) = none ∧
          (none : Option DuplicateMatch) = none) :=
  check_all_sorted_matches stC6 "h1" "t" none none none none 0
    (some mHC6) none none rfl rfl rfl

/-- Detector state of the C6 counterexample: the vendor-name index holds a
record registered without an amount (a stored Python `None`). -/
def stCrash : DetectorState :=
  { hash_index := [],
    vendor_index :=
      [("t:acme", [{ document_id := "d1", upload_date := some 0,
                     amount := none, invoice_number := none }])] }

/-- C6 counterexample.  On an input that reaches the similar-amount check
against a record whose stored amount is `None`, `check_all` raises
`TypeError` (from `abs(a - None)`) instead of returning a list of matches,
so "for every input `check_all` returns the matches ..." fails as stated. -/
theorem check_all_raises_on_none_amount :
    check_all stCrash "h2" "t" (some "acme") none none (some 100) 0 =
      .error "TypeError: unsupported operand type(s) for -: float and NoneType" := by
  have hsim : check_similar_invoice stCrash "acme" 100 "t" 0 =
      .error "TypeError: unsupported operand type(s) for -: float and NoneType" := by
    unfold check_similar_invoice
    rw [if_neg (by push_neg; exact ⟨by decide, by norm_num⟩)]
    dsimp only
    rw [show alistGet stCrash.vendor_index ("t" ++ ":" ++ pyLower "acme") =
      some [{ document_id := "d1", upload_date := some 0, amount := none,
              invoice_number := none }] from rfl]
    unfold similarLoop
    dsimp only
    rw [if_neg (by simp [pyDays])]
  unfold check_all
  dsimp only
  rw [if_pos ⟨by decide, by norm_num [truthyQ]⟩]
  simp only [Option.getD_some]
  rw [hsim]

end DuplicateWitnessProofs

section RulesEngineProofs

open ApprovalRulesM

/-- C7.  A `matches_regex` condition evaluates to `False` even when the
regular expression plainly matches the resolved field (here `^A` against
`Acme`): the operator is declared in `RuleOperator` but `evaluate` has no
branch for it and falls through to the final `return False`, contradicting
the operator list the engine advertises. -/
theorem matches_regex_always_false :
    evaluate { field := "vendor.name", operator := .matches_regex,
               value := .vStr "^A" }
      [("vendor", .vDict [("name", .vStr "Acme")])] = .ok false := rfl

/-- C10.  When the dotted field path does not resolve to a value (missing
key, or a non-dict met along the path — both yield `None`), `evaluate`
returns `False` before dispatching on the operator, whatever it is. -/
theorem unresolved_field_evaluates_false (c : RuleCondition)
    (data : List (String × PyVal))
    (h : getField (.vDict data) (splitDot c.field) = .vNone) :
    evaluate c data = .ok false := by
  unfold evaluate
  rw [h]
  rfl

/-- Witness for C10: a `not_equals` condition on a field absent from the
record evaluates to `False` — a missing field is not "not equal". -/
theorem unresolved_field_evaluates_false_witness :
    getField (.vDict [("total", PyVal.vNum 5)])
        (splitDot "vendor.rating") = .vNone ∧
    evaluate { field := "vendor.rating", operator := .not_equals,
               value := .vStr "low" }
      [("total", PyVal.vNum 5)] = .ok false :=
  ⟨rfl,
   unresolved_field_evaluates_false
     { field := "vendor.rating", operator := .not_equals, value := .vStr "low" }
     [("total", PyVal.vNum 5)] rfl⟩

end RulesEngineProofs
